import Mathlib

/-!
Verification of the board-resolution engine of the gem-match game.

The definitions below are a shallow embedding of the game engine found in
the repository's main scene logic (the `GameScene` class: board model,
match detection, power-up creation, power-up activation with chain
reactions, power-up combinations, gravity, and the no-moves oracle),
together with the older scene variant's move-counter logic where a claim
cites it.

Modelling conventions:
* A board is a function `Nat → Nat → Cell`; the game stores cells in an
  `size × size` array indexed `[row][column]`.  A cell object's identity in
  the source (reference equality) corresponds to its current board slot,
  which is faithful whenever the well-formedness invariant `WF` holds
  (each cell's `row`/`column` fields agree with its slot); the source
  maintains exactly this invariant (`swapCells` rewrites both fields).
* The sprite field and all animation / sound / logging code is
  presentation-only and is not part of the engine state.
* TypeScript strings for colors become the inductive `ColorV`; a nullable
  string becomes `Option ColorV`.  Power-up pseudo-colors are the `ColorV.pu`
  constructors, so a power-up's color never equals a gem color, exactly as
  the distinct string names never compare equal with `===`.
* The recursion in `triggerPowerUp` / `executeCombination` (chain
  activation) terminates because every recursive call first clears a
  power-up flag.  Lean needs a structurally decreasing argument, so the
  recursive engine is defined with an explicit depth budget (`engineRun`),
  instantiated with `powerupCount b + 2`, which bounds the possible
  recursion depth: each nesting level past the combination hand-off
  consumes at least one power-up.
-/

namespace GemMatch

/-- Number of cells per row/column.  `constants.ts` is not part of the dump;
the spec fixes the grid at N = 8 (`initBoard` loops `0 ≤ row, column < size`). -/
def size : Nat := 8

/-- `explosionThreshold = 3`: number of cells required to trigger an explosion. -/
def explosionThreshold : Nat := 3

/-- The six normal gem colors (the `gems` array). -/
inductive GemColor where
  | blue | green | orange | red | white | yellow
  deriving DecidableEq, Repr, Inhabited

/-- `PowerUpType` without the `null` alternative (nullability is `Option`). -/
inductive PowerUp where
  | hRocket   -- 'horizontal-rocket'
  | vRocket   -- 'vertical-rocket'
  | tnt       -- 'tnt'
  | colorBomb -- 'color-bomb'
  | flyAway   -- 'fly-away'
  deriving DecidableEq, Repr, Inhabited

/-- A cell's `color` string: either a gem color or a power-up's reserved
pseudo-color (the source stores the power-up type name in `color`). -/
inductive ColorV where
  | gem : GemColor → ColorV
  | pu : PowerUp → ColorV
  deriving DecidableEq, Repr, Inhabited

/-- The `Cell` record (sprite omitted: presentation only).  `color` is
nullable in the source (`null` while freshly created), hence `Option`. -/
structure Cell where
  row : Nat
  column : Nat
  color : Option ColorV
  empty : Bool
  powerup : Option PowerUp
  deriving DecidableEq, Repr, Inhabited

/-- The board: cells indexed by `[row][column]`. -/
def Board : Type := Nat → Nat → Cell

/-- Well-formedness: each in-range slot's cell carries its own coordinates.
The source maintains this invariant (`createEmptyBoard` establishes it and
`swapCells` rewrites both position fields on every swap). -/
def WF (b : Board) : Prop :=
  ∀ r, r < size → ∀ c, c < size → (b r c).row = r ∧ (b r c).column = c

instance : DecidablePred WF := by
  intro b
  unfold WF
  infer_instance

/-- Write one board slot. -/
def setCell (b : Board) (p : Nat × Nat) (cell : Cell) : Board :=
  fun r c => if (r, c) = p then cell else b r c

/-- `cell.empty = true` on the cell in slot `p` (all other fields kept). -/
def markEmpty (b : Board) (p : Nat × Nat) : Board :=
  setCell b p { b p.1 p.2 with empty := true }

/-- `swapCells(firstCell, secondCell)`: the two cells exchange `row`/`column`
fields and board slots.  `p1`, `p2` are the slots holding the two cells. -/
def swapCells (b : Board) (p1 p2 : Nat × Nat) : Board :=
  fun r c =>
    if (r, c) = p2 then { b p1.1 p1.2 with row := p2.1, column := p2.2 }
    else if (r, c) = p1 then { b p2.1 p2.2 with row := p1.1, column := p1.2 }
    else b r c

/-- `cellsAreNeighbours(cell1, cell2)`.  The source compares
`cell1.column === cell2.column - 1` over JS numbers; over `Nat` this is
written `cell1.column + 1 = cell2.column` (same relation, no truncation). -/
def cellsAreNeighbours (cell1 cell2 : Cell) : Bool :=
  decide ((cell1.row = cell2.row ∧
      (cell1.column = cell2.column + 1 ∨ cell1.column + 1 = cell2.column)) ∨
    (cell1.column = cell2.column ∧
      (cell1.row = cell2.row + 1 ∨ cell1.row + 1 = cell2.row)))

/-- `shouldExplodeHorizontally({row, column})`: slide a window of
`explosionThreshold` cells over every start offset that contains the cell;
the source iterates `startPosition` from `column - explosionThreshold + 1`
to `column` (possibly negative, hence `Int`), keeps windows inside the
board, and succeeds when all adjacent colors in a window agree. -/
def shouldExplodeHorizontally (b : Board) (cell : Cell) : Bool :=
  (List.range explosionThreshold).any fun k =>
    let startPosition : Int := (cell.column : Int) - (explosionThreshold : Int) + 1 + k
    let endPosition : Int := startPosition + (explosionThreshold : Int) - 1
    decide (0 ≤ startPosition) && decide (endPosition < (size : Int)) &&
      ((List.range (explosionThreshold - 1)).all fun i =>
        let idx := (startPosition + i).toNat
        decide ((b cell.row idx).color = (b cell.row (idx + 1)).color))

/-- `shouldExplodeVertically({row, column})`: vertical counterpart. -/
def shouldExplodeVertically (b : Board) (cell : Cell) : Bool :=
  (List.range explosionThreshold).any fun k =>
    let startPosition : Int := (cell.row : Int) - (explosionThreshold : Int) + 1 + k
    let endPosition : Int := startPosition + (explosionThreshold : Int) - 1
    decide (0 ≤ startPosition) && decide (endPosition < (size : Int)) &&
      ((List.range (explosionThreshold - 1)).all fun i =>
        let idx := (startPosition + i).toNat
        decide ((b idx cell.column).color = (b (idx + 1) cell.column).color))

/-- `shouldExplode(cell)`: power-ups never explode as part of normal
matches; otherwise a cell explodes when a 3-window through it matches. -/
def shouldExplode (b : Board) (cell : Cell) : Bool :=
  if cell.powerup.isSome then false
  else shouldExplodeHorizontally b cell || shouldExplodeVertically b cell

/-- A special pattern record `{cell, type, cells}`; cells are identified by
their board slots. -/
structure Pattern where
  cell : Nat × Nat
  ptype : PowerUp
  cells : List (Nat × Nat)
  deriving DecidableEq, Repr

/-- One candidate L-orientation: the five slots are the center plus two in
one axis plus two in the other; returns the pattern when they all match. -/
def lCells (center : Nat × Nat) (arm1 arm2 : Nat × Nat) (arm3 arm4 : Nat × Nat) :
    List (Nat × Nat) :=
  [center, arm1, arm2, arm3, arm4]

/-- `detectSpecialPatterns()`: first a pass over all 2×2 anchors creating
fly-away patterns, then a pass over all centers trying the four L
orientations in the source's order; `usedCells` prevents overlap. -/
def detectSpecialPatterns (b : Board) : List Pattern :=
  let squareScan :=
    (List.range (size - 1)).foldl (fun acc row =>
      (List.range (size - 1)).foldl (fun acc col =>
        let (patterns, usedCells) := acc
        let topLeft := b row col
        let squareCells : List (Nat × Nat) :=
          [(row, col), (row, col + 1), (row + 1, col), (row + 1, col + 1)]
        if squareCells.any (fun q => usedCells.contains q) then acc
        else if !topLeft.empty && topLeft.powerup.isNone &&
            decide (topLeft.color = (b row (col + 1)).color) &&
            decide (topLeft.color = (b (row + 1) col).color) &&
            decide (topLeft.color = (b (row + 1) (col + 1)).color) then
          (patterns ++ [⟨(row, col), PowerUp.flyAway, squareCells⟩],
            usedCells ++ squareCells)
        else acc) acc)
      (([], []) : List Pattern × List (Nat × Nat))
  (List.range size).foldl (fun acc row =>
    (List.range size).foldl (fun acc col =>
      let (patterns, usedCells) := acc
      let center := b row col
      if center.empty || center.powerup.isSome || usedCells.contains (row, col) then acc
      else
        let tryL := fun (ok : Bool) (cells : List (Nat × Nat)) (acc : List Pattern × List (Nat × Nat)) =>
          let (patterns, usedCells) := acc
          if ok &&
              cells.all (fun q =>
                !(b q.1 q.2).empty && (b q.1 q.2).powerup.isNone &&
                  decide ((b q.1 q.2).color = center.color)) &&
              cells.all (fun q => !usedCells.contains q) then
            some (patterns ++ [⟨(row, col), PowerUp.tnt, cells⟩], usedCells ++ cells)
          else none
        -- L-shape 1: right and up
        match tryL (decide (col ≤ size - 3) && decide (2 ≤ row))
            (lCells (row, col) (row, col + 1) (row, col + 2) (row - 1, col) (row - 2, col)) acc with
        | some acc => acc
        | none =>
        -- L-shape 2: left and up
        match tryL (decide (2 ≤ col) && decide (2 ≤ row))
            (lCells (row, col) (row, col - 1) (row, col - 2) (row - 1, col) (row - 2, col)) acc with
        | some acc => acc
        | none =>
        -- L-shape 3: right and down
        match tryL (decide (col ≤ size - 3) && decide (row ≤ size - 3))
            (lCells (row, col) (row, col + 1) (row, col + 2) (row + 1, col) (row + 2, col)) acc with
        | some acc => acc
        | none =>
        -- L-shape 4: left and down
        match tryL (decide (2 ≤ col) && decide (row ≤ size - 3))
            (lCells (row, col) (row, col - 1) (row, col - 2) (row + 1, col) (row + 2, col)) acc with
        | some acc => acc
        | none => acc) acc)
    squareScan
  |>.1

/-- `boardShouldExplode()`: a regular 3+-match anywhere, or at least one
special pattern (2×2 square / L-shape). -/
def boardShouldExplode (b : Board) : Bool :=
  let hasRegularMatches :=
    (List.range size).any fun r => (List.range size).any fun c => shouldExplode b (b r c)
  let hasSpecialPatterns := !(detectSpecialPatterns b).isEmpty
  hasRegularMatches || hasSpecialPatterns

/-- A move recorded by the oracle: the two swapped cells, identified by the
slots they occupy on the unswapped board. -/
abbrev Move := (Nat × Nat) × (Nat × Nat)

/-- The `(row, column)` pairs visited by `getWinningMoves`'s nested loops:
`0 ≤ row < size - 1` outer, `0 ≤ column < size - 1` inner. -/
def cellIndices : List (Nat × Nat) :=
  ((List.range (size - 1)).map fun row =>
    (List.range (size - 1)).map fun column => (row, column)).flatten

/-- One iteration of `getWinningMoves`'s loop body, threading the mutated
board and the `winningMoves` accumulator: trial-swap right, test, revert,
trial-swap down, test, revert. -/
def getWinningMovesStep (bm : Board × List Move) (rc : Nat × Nat) : Board × List Move :=
  let (b, winningMoves) := bm
  let (row, column) := rc
  let b1 := swapCells b (row, column) (row, column + 1)
  let winningMoves1 :=
    if boardShouldExplode b1 then winningMoves ++ [((row, column), (row, column + 1))]
    else winningMoves
  let b2 := swapCells b1 (row, column) (row, column + 1)
  let b3 := swapCells b2 (row, column) (row + 1, column)
  let winningMoves2 :=
    if boardShouldExplode b3 then winningMoves1 ++ [((row, column), (row + 1, column))]
    else winningMoves1
  let b4 := swapCells b3 (row, column) (row + 1, column)
  (b4, winningMoves2)

/-- `getWinningMoves()` with the board threaded explicitly (the source
mutates `this.board` during the trial swaps); first component is the board
as left behind by the loop, second the returned move list. -/
def getWinningMovesS (b : Board) : Board × List Move :=
  cellIndices.foldl getWinningMovesStep (b, [])

/-- The list `getWinningMoves()` returns. -/
def getWinningMoves (b : Board) : List Move :=
  (getWinningMovesS b).2

/-- Scanning helper of `getLowestEmptyCellBelow`: `go i` inspects row
`r + i`, descending; the source's loop runs `row` from `size - 1` down to
`r + 1` and returns the first empty cell found. -/
def lowestEmptyBelowGo (b : Board) (c r : Nat) : Nat → Option Nat
  | 0 => none
  | i + 1 =>
    let row := r + i + 1
    if (b row c).empty then some row else lowestEmptyBelowGo b c r i

/-- `getLowestEmptyCellBelow(cell)`: the lowest empty slot strictly below
the cell in its column (`none` when there is none). -/
def getLowestEmptyCellBelow (b : Board) (r c : Nat) : Option Nat :=
  lowestEmptyBelowGo b c r (size - 1 - r)

/-- Body of `makeCellsFall`'s inner loop at `(row, column)`: a non-empty
cell is swapped with the lowest empty cell below it, if any. -/
def fallStep (b : Board) (column row : Nat) : Board :=
  let cell := b row column
  match getLowestEmptyCellBelow b cell.row cell.column with
  | some j =>
    if !cell.empty then swapCells b (cell.row, cell.column) (j, cell.column) else b
  | none => b

/-- The inner loop of `makeCellsFall` for one column: `fallColFrom b c m`
processes rows `m - 1, m - 2, …, 0` (the source iterates `row` from
`size - 1` down to `0`, which is `fallColFrom b c size`). -/
def fallColFrom (b : Board) (column : Nat) : Nat → Board
  | 0 => b
  | m + 1 => fallColFrom (fallStep b column m) column m

/-- One column pass of `makeCellsFall`. -/
def fallColumn (b : Board) (column : Nat) : Board :=
  fallColFrom b column size

/-- `makeCellsFall()` (sprite movement omitted): per column, scanning
bottom-to-top, swap each non-empty cell into the lowest empty cell below. -/
def makeCellsFall (b : Board) : Board :=
  (List.range size).foldl fallColumn b

/-- The rows of the board as lists of cells (`this.board` row-major). -/
def rowsOf (b : Board) : List (List Cell) :=
  (List.range size).map fun r => (List.range size).map fun c => b r c

/-- The columns of the board (`TransposeMatrix(this.board)`). -/
def columnsOf (b : Board) : List (List Cell) :=
  (List.range size).map fun c => (List.range size).map fun r => b r c

/-- Loop of `getExplodingChainsOnLine`: at index `i`, extend a run of
cells whose color equals `line[i].color`; a run of length
≥ `explosionThreshold` is emitted and the scan resumes after it, otherwise
the scan advances by one.  `fuel` bounds the iteration count (the index
strictly increases, so `line.length` iterations suffice). -/
def chainsOnLineGo (line : List Cell) : Nat → Nat → List (List Cell)
  | 0, _ => []
  | fuel + 1, i =>
    if i < line.length then
      let run := (line.drop i).takeWhile fun cell =>
        decide (cell.color = (line.getD i default).color)
      if explosionThreshold ≤ run.length then
        run :: chainsOnLineGo line fuel (i + run.length)
      else chainsOnLineGo line fuel (i + 1)
    else []

/-- `getExplodingChainsOnLine(line)`. -/
def getExplodingChainsOnLine (line : List Cell) : List (List Cell) :=
  chainsOnLineGo line line.length 0

/-- `getExplodingChains()`: chains of all rows, then of all columns. -/
def getExplodingChains (b : Board) : List (List Cell) :=
  (rowsOf b ++ columnsOf b).map getExplodingChainsOnLine |>.flatten

/-- `getCellsToDestroy()`: every cell that should explode or is marked
empty — except power-up cells, which are never destroyed here. -/
def getCellsToDestroy (b : Board) : List Cell :=
  (rowsOf b).flatten.filter fun cell =>
    (shouldExplode b cell || cell.empty) && cell.powerup.isNone

/-- `getNeighbors(cell)`: up, down, left, right, bounds permitting. -/
def getNeighbors (b : Board) (cell : Cell) : List Cell :=
  (if 0 < cell.row then [b (cell.row - 1) cell.column] else []) ++
  (if cell.row < size - 1 then [b (cell.row + 1) cell.column] else []) ++
  (if 0 < cell.column then [b cell.row (cell.column - 1)] else []) ++
  (if cell.column < size - 1 then [b cell.row (cell.column + 1)] else [])

/-- `getAdjacentGemColor(cell)`: the color of the first non-empty,
non-power-up neighbor that has a (truthy) color. -/
def getAdjacentGemColor (b : Board) (cell : Cell) : Option ColorV :=
  match (getNeighbors b cell).find? fun neighbor =>
      !neighbor.empty && neighbor.powerup.isNone && neighbor.color.isSome with
  | some neighbor => neighbor.color
  | none => none

/-- All board slots in row-major order. -/
def allPositions : List (Nat × Nat) :=
  ((List.range size).map fun r => (List.range size).map fun c => (r, c)).flatten

/-- `findBestFlyAwayTarget(fromCell, excludeCells)`: row-major scan for the
non-empty non-power-up cell with the strictly largest number of same-color
neighbors (first found wins ties), skipping the origin and excluded slots. -/
def findBestFlyAwayTarget (b : Board) (fromPos : Nat × Nat)
    (excludeCells : List (Nat × Nat)) : Option (Nat × Nat) :=
  (allPositions.foldl (fun acc p =>
    let (bestCell, bestScore) := acc
    let cell := b p.1 p.2
    if cell.empty || cell.powerup.isSome || p = fromPos || excludeCells.contains p then acc
    else
      let matchCount := ((getNeighbors b cell).filter fun n =>
        !n.empty && n.powerup.isNone && decide (n.color = cell.color)).length
      if bestScore < matchCount then (some p, matchCount) else (bestCell, bestScore))
    ((none, 0) : Option (Nat × Nat) × Nat)).1

/-- Number of power-up cells on the board (used as the recursion-depth
budget for the chain-activation engine). -/
def powerupCount (b : Board) : Nat :=
  (allPositions.filter fun p => (b p.1 p.2).powerup.isSome).length

/-- A pending engine call: a single power-up activation
(`triggerPowerUp(cell, swappedWith?)`) or a two-power-up combination
(`executeCombination(cell1, cell2)`). -/
inductive EngineCall where
  | trigger (p : Nat × Nat) (swappedWith : Option (Nat × Nat))
  | combine (p1 p2 : Nat × Nat)

/-- Index ordering the source's `[type1, type2].sort()` induces on the
power-up names: 'color-bomb' < 'fly-away' < 'horizontal-rocket' < 'tnt' <
'vertical-rocket' (lexicographic on the strings). -/
def puIdx : PowerUp → Nat
  | .colorBomb => 0
  | .flyAway => 1
  | .hRocket => 2
  | .tnt => 3
  | .vRocket => 4

/-- The sorted pair `[type1, type2].sort()`. -/
def sortPair (t1 t2 : PowerUp) : PowerUp × PowerUp :=
  if puIdx t1 ≤ puIdx t2 then (t1, t2) else (t2, t1)

/-- The four axis directions, in the source's order (up, down, left, right). -/
def axisDirs : List (Int × Int) := [(-1, 0), (1, 0), (0, -1), (0, 1)]

/-- Shared destroy-or-chain-activate step used by every destruction
pattern: a slot holding a power-up (other than the excluded consumed
cells) is chain-activated via `recur` (the source's recursive
`this.triggerPowerUp(targetCell)` call); any other slot is marked empty.
`recur` is the engine at the remaining recursion budget. -/
def chainOrMark (recur : Board → EngineCall → GemColor → Board)
    (excl : List (Nat × Nat)) (rnd : GemColor) (b : Board) (q : Nat × Nat) : Board :=
  if (b q.1 q.2).powerup.isSome && !excl.contains q then
    recur b (.trigger q none) rnd
  else markEmpty b q

/-- Single activation of `triggerPowerUp` after the combination check:
clear the power-up flag, mark the cell empty, then apply the type-specific
destruction pattern, chain-activating any power-up the pattern touches.
For `fly-away`, only the immediate first explosion is part of this
synchronous step: the flight to the best target and the second explosion
happen inside the flight animation's callbacks (`animateFlyAway`), i.e.
asynchronously after this call returns. -/
def triggerSingle (recur : Board → EngineCall → GemColor → Board)
    (b : Board) (p : Nat × Nat) (powerUpType : PowerUp)
    (swappedWith : Option (Nat × Nat)) (rnd : GemColor) : Board :=
  let cell := b p.1 p.2
  let b1 := setCell b p { cell with powerup := none, empty := true }
  match powerUpType with
  | .hRocket =>
    (List.range size).foldl (fun bAcc col =>
      chainOrMark recur [p] rnd bAcc (cell.row, col)) b1
  | .vRocket =>
    (List.range size).foldl (fun bAcc row =>
      chainOrMark recur [p] rnd bAcc (row, cell.column)) b1
  | .colorBomb =>
    let targetColor : Option ColorV :=
      match swappedWith with
      | some q =>
        let swappedCell := b1 q.1 q.2
        if !swappedCell.empty && swappedCell.powerup.isNone && swappedCell.color.isSome then
          swappedCell.color
        else getAdjacentGemColor b1 (b1 p.1 p.2)
      | none => getAdjacentGemColor b1 (b1 p.1 p.2)
    match targetColor with
    | some tc =>
      (List.range size).foldl (fun bAcc row =>
        (List.range size).foldl (fun bAcc col =>
          if decide ((bAcc row col).color = some tc) then
            -- chain-activate matching power-ups (their pseudo-color can
            -- only match a pseudo-color target), destroy matching gems
            (if (bAcc row col).powerup.isSome then recur bAcc (.trigger (row, col) none) rnd
             else markEmpty bAcc (row, col))
          else bAcc) bAcc) b1
    | none => b1
  | .tnt =>
    axisDirs.foldl (fun bAcc dir =>
      ([1, 2] : List Int).foldl (fun bAcc distance =>
        let targetRow : Int := (cell.row : Int) + dir.1 * distance
        let targetCol : Int := (cell.column : Int) + dir.2 * distance
        if 0 ≤ targetRow ∧ targetRow < (size : Int) ∧ 0 ≤ targetCol ∧ targetCol < (size : Int) then
          let q := (targetRow.toNat, targetCol.toNat)
          (if (bAcc q.1 q.2).powerup.isSome then recur bAcc (.trigger q none) rnd
           else markEmpty bAcc q)
        else bAcc) bAcc) b1
  | .flyAway =>
    match findBestFlyAwayTarget b1 p [] with
    | some _ =>
      -- first explosion at the origin (cross of the 4 neighbors); the
      -- flight and the target explosion are deferred to the animation
      axisDirs.foldl (fun bAcc dir =>
        let targetRow : Int := (cell.row : Int) + dir.1
        let targetCol : Int := (cell.column : Int) + dir.2
        if 0 ≤ targetRow ∧ targetRow < (size : Int) ∧ 0 ≤ targetCol ∧ targetCol < (size : Int) then
          let q := (targetRow.toNat, targetCol.toNat)
          (if (bAcc q.1 q.2).powerup.isSome then recur bAcc (.trigger q none) rnd
           else markEmpty bAcc q)
        else bAcc) b1
    | none => b1

/-- `executeCombination(cell1, cell2)`: consume both power-ups, then apply
the effect selected by the sorted type pair, anchored at `cell2`'s
position; `rnd` is the color `Phaser.Math.RND.pick(colors)` would return
for the color-bomb fallback (`getRandomGemColor`). -/
def executeCombinationBody (recur : Board → EngineCall → GemColor → Board)
    (b : Board) (p1 p2 : Nat × Nat) (rnd : GemColor) : Board :=
  let type1 := (b p1.1 p1.2).powerup
  let type2 := (b p2.1 p2.2).powerup
  let position := b p2.1 p2.2
  let b1 := setCell b p1 { b p1.1 p1.2 with powerup := none, empty := true }
  let b1 := setCell b1 p2 { b1 p2.1 p2.2 with powerup := none, empty := true }
  match type1, type2 with
  | some t1, some t2 =>
    match sortPair t1 t2 with
    | (.hRocket, .vRocket) =>
      let bRow := (List.range size).foldl (fun bAcc col =>
        chainOrMark recur [p1, p2] rnd bAcc (position.row, col)) b1
      (List.range size).foldl (fun bAcc row =>
        chainOrMark recur [p1, p2] rnd bAcc (row, position.column)) bRow
    | (.hRocket, .hRocket) =>
      ([-1, 0, 1] : List Int).foldl (fun bAcc rowOffset =>
        let targetRow : Int := (position.row : Int) + rowOffset
        if 0 ≤ targetRow ∧ targetRow < (size : Int) then
          (List.range size).foldl (fun bAcc col =>
            chainOrMark recur [p1, p2] rnd bAcc (targetRow.toNat, col)) bAcc
        else bAcc) b1
    | (.vRocket, .vRocket) =>
      ([-1, 0, 1] : List Int).foldl (fun bAcc colOffset =>
        let targetCol : Int := (position.column : Int) + colOffset
        if 0 ≤ targetCol ∧ targetCol < (size : Int) then
          (List.range size).foldl (fun bAcc row =>
            chainOrMark recur [p1, p2] rnd bAcc (row, targetCol.toNat)) bAcc
        else bAcc) b1
    | (.tnt, .tnt) =>
      ([-2, -1, 0, 1, 2] : List Int).foldl (fun bAcc rowOffset =>
        ([-2, -1, 0, 1, 2] : List Int).foldl (fun bAcc colOffset =>
          let targetRow : Int := (position.row : Int) + rowOffset
          let targetCol : Int := (position.column : Int) + colOffset
          if 0 ≤ targetRow ∧ targetRow < (size : Int) ∧
              0 ≤ targetCol ∧ targetCol < (size : Int) then
            chainOrMark recur [p1, p2] rnd bAcc (targetRow.toNat, targetCol.toNat)
          else bAcc) bAcc) b1
    | (.hRocket, .tnt) =>
      (List.range size).foldl (fun bAcc col =>
        let bAcc := chainOrMark recur [p1, p2] rnd bAcc (position.row, col)
        axisDirs.foldl (fun bAcc dir =>
          ([1, 2] : List Int).foldl (fun bAcc dist =>
            let targetRow : Int := (position.row : Int) + dir.1 * dist
            let targetCol : Int := (col : Int) + dir.2 * dist
            if 0 ≤ targetRow ∧ targetRow < (size : Int) ∧
                0 ≤ targetCol ∧ targetCol < (size : Int) then
              chainOrMark recur [p1, p2] rnd bAcc (targetRow.toNat, targetCol.toNat)
            else bAcc) bAcc) bAcc) b1
    | (.tnt, .vRocket) =>
      (List.range size).foldl (fun bAcc row =>
        let bAcc := chainOrMark recur [p1, p2] rnd bAcc (row, position.column)
        axisDirs.foldl (fun bAcc dir =>
          ([1, 2] : List Int).foldl (fun bAcc dist =>
            let targetRow : Int := (row : Int) + dir.1 * dist
            let targetCol : Int := (position.column : Int) + dir.2 * dist
            if 0 ≤ targetRow ∧ targetRow < (size : Int) ∧
                0 ≤ targetCol ∧ targetCol < (size : Int) then
              chainOrMark recur [p1, p2] rnd bAcc (targetRow.toNat, targetCol.toNat)
            else bAcc) bAcc) bAcc) b1
    | (.colorBomb, .colorBomb) =>
      (List.range size).foldl (fun bAcc row =>
        (List.range size).foldl (fun bAcc col =>
          if (row, col) ≠ p1 ∧ (row, col) ≠ p2 then markEmpty bAcc (row, col)
          else bAcc) bAcc) b1
    | (.colorBomb, .hRocket) =>
      let hRocketColor : ColorV :=
        (getAdjacentGemColor b1 (b1 p2.1 p2.2)).getD (ColorV.gem rnd)
      (List.range size).foldl (fun bAcc row =>
        (List.range size).foldl (fun bAcc col =>
          let targetCell := bAcc row col
          if decide (targetCell.color = some hRocketColor) && !targetCell.empty &&
              targetCell.powerup.isNone then
            (List.range size).foldl (fun bAcc c =>
              chainOrMark recur [p1, p2] rnd bAcc (row, c)) bAcc
          else bAcc) bAcc) b1
    | (.colorBomb, .vRocket) =>
      let vRocketColor : ColorV :=
        (getAdjacentGemColor b1 (b1 p2.1 p2.2)).getD (ColorV.gem rnd)
      (List.range size).foldl (fun bAcc row =>
        (List.range size).foldl (fun bAcc col =>
          let targetCell := bAcc row col
          if decide (targetCell.color = some vRocketColor) && !targetCell.empty &&
              targetCell.powerup.isNone then
            (List.range size).foldl (fun bAcc r =>
              chainOrMark recur [p1, p2] rnd bAcc (r, col)) bAcc
          else bAcc) bAcc) b1
    | (.colorBomb, .tnt) =>
      let tntColor : ColorV :=
        (getAdjacentGemColor b1 (b1 p2.1 p2.2)).getD (ColorV.gem rnd)
      (List.range size).foldl (fun bAcc row =>
        (List.range size).foldl (fun bAcc col =>
          let targetCell := bAcc row col
          if decide (targetCell.color = some tntColor) && !targetCell.empty &&
              targetCell.powerup.isNone then
            let bAcc := markEmpty bAcc (row, col)
            axisDirs.foldl (fun bAcc dir =>
              ([1, 2] : List Int).foldl (fun bAcc dist =>
                let targetRow : Int := (row : Int) + dir.1 * dist
                let targetCol : Int := (col : Int) + dir.2 * dist
                if 0 ≤ targetRow ∧ targetRow < (size : Int) ∧
                    0 ≤ targetCol ∧ targetCol < (size : Int) then
                  chainOrMark recur [p1, p2] rnd bAcc (targetRow.toNat, targetCol.toNat)
                else bAcc) bAcc) bAcc
          else bAcc) bAcc) b1
    | (.colorBomb, .flyAway) =>
      let flyawayColor : ColorV :=
        (getAdjacentGemColor b1 (b1 p2.1 p2.2)).getD (ColorV.gem rnd)
      (List.range size).foldl (fun bAcc row =>
        (List.range size).foldl (fun bAcc col =>
          let targetCell := bAcc row col
          if decide (targetCell.color = some flyawayColor) && !targetCell.empty &&
              targetCell.powerup.isNone then
            let bAcc := markEmpty bAcc (row, col)
            axisDirs.foldl (fun bAcc dir =>
              let targetRow : Int := (row : Int) + dir.1
              let targetCol : Int := (col : Int) + dir.2
              if 0 ≤ targetRow ∧ targetRow < (size : Int) ∧
                  0 ≤ targetCol ∧ targetCol < (size : Int) then
                chainOrMark recur [p1, p2] rnd bAcc (targetRow.toNat, targetCol.toNat)
              else bAcc) bAcc
          else bAcc) bAcc) b1
    | (.flyAway, .flyAway) =>
      (((List.range 3).foldl (fun acc _ =>
        let (bAcc, targets) := acc
        match findBestFlyAwayTarget bAcc p2 targets with
        | some target =>
          let bAcc := markEmpty bAcc target
          let bAcc := axisDirs.foldl (fun bAcc dir =>
            let targetRow : Int := (target.1 : Int) + dir.1
            let targetCol : Int := (target.2 : Int) + dir.2
            if 0 ≤ targetRow ∧ targetRow < (size : Int) ∧
                0 ≤ targetCol ∧ targetCol < (size : Int) then
              chainOrMark recur [p1, p2] rnd bAcc (targetRow.toNat, targetCol.toNat)
            else bAcc) bAcc
          (bAcc, targets ++ [target])
        | none => acc) ((b1, []) : Board × List (Nat × Nat)))).1
    | (.flyAway, .hRocket) =>
      let hTargetRow :=
        match findBestFlyAwayTarget b1 p2 [] with
        | some target => target.1
        | none => position.row
      (List.range size).foldl (fun bAcc col =>
        chainOrMark recur [p1, p2] rnd bAcc (hTargetRow, col)) b1
    | (.flyAway, .vRocket) =>
      let vTargetCol :=
        match findBestFlyAwayTarget b1 p2 [] with
        | some target => target.2
        | none => position.column
      (List.range size).foldl (fun bAcc row =>
        chainOrMark recur [p1, p2] rnd bAcc (row, vTargetCol)) b1
    | (.flyAway, .tnt) =>
      let tntTargetPos :=
        match findBestFlyAwayTarget b1 p2 [] with
        | some target => target
        | none => (position.row, position.column)
      let b2 := markEmpty b1 tntTargetPos
      axisDirs.foldl (fun bAcc dir =>
        ([1, 2, 3, 4] : List Int).foldl (fun bAcc dist =>
          let targetRow : Int := (tntTargetPos.1 : Int) + dir.1 * dist
          let targetCol : Int := (tntTargetPos.2 : Int) + dir.2 * dist
          if 0 ≤ targetRow ∧ targetRow < (size : Int) ∧
              0 ≤ targetCol ∧ targetCol < (size : Int) then
            chainOrMark recur [p1, p2] rnd bAcc (targetRow.toNat, targetCol.toNat)
          else bAcc) bAcc) b2
    | _ =>
      -- not-yet-implemented pairing: trigger both power-ups separately
      -- (they were already consumed, so these are no-ops, as in the source)
      let b2 := recur b1 (.trigger p1 none) rnd
      recur b2 (.trigger p2 none) rnd
  | _, _ =>
    let b2 := recur b1 (.trigger p1 none) rnd
    recur b2 (.trigger p2 none) rnd

/-- One step of the activation engine: `triggerPowerUp` (with its hand-off
to `executeCombination` when the swapped-with cell also holds a power-up)
or `executeCombination`, with `recur` standing for the recursive calls. -/
def engineBody (recur : Board → EngineCall → GemColor → Board)
    (b : Board) (call : EngineCall) (rnd : GemColor) : Board :=
  match call with
  | .trigger p swappedWith =>
    match (b p.1 p.2).powerup with
    | none => b
    | some powerUpType =>
      match swappedWith with
      | some q =>
        if (b q.1 q.2).powerup.isSome then recur b (.combine p q) rnd
        else triggerSingle recur b p powerUpType (some q) rnd
      | none => triggerSingle recur b p powerUpType none rnd
  | .combine p1 p2 => executeCombinationBody recur b p1 p2 rnd

/-- The activation engine at a given recursion-depth budget.  With budget
`0` nothing happens; the game only ever runs it with a budget exceeding
the possible chain depth (each nesting level past a combination hand-off
clears at least one power-up first, so `powerupCount b + 2` suffices). -/
def engineRun : Nat → Board → EngineCall → GemColor → Board
  | 0 => fun b _ _ => b
  | fuel + 1 => engineBody (engineRun fuel)

/-- `triggerPowerUp(cell, swappedWith?)`.  `rnd` models the external
random source consulted by the color-bomb combination fallback. -/
def triggerPowerUp (b : Board) (p : Nat × Nat) (swappedWith : Option (Nat × Nat))
    (rnd : GemColor) : Board :=
  engineRun (powerupCount b + 2) b (.trigger p swappedWith) rnd

/-- `executeCombination(cell1, cell2)` as invoked on a board state. -/
def executeCombination (b : Board) (p1 p2 : Nat × Nat) (rnd : GemColor) : Board :=
  engineRun (powerupCount b + 2) b (.combine p1 p2) rnd

/-- `createPowerUp(powerUpCell, powerUpType)` (sprite replacement and the
particle burst omitted): set the power-up flag and overwrite the color
with the reserved pseudo-color. -/
def createPowerUp (b : Board) (p : Nat × Nat) (powerUpType : PowerUp) : Board :=
  setCell b p { b p.1 p.2 with powerup := some powerUpType,
                               color := some (.pu powerUpType) }

/-- `createPowerUpsFromChains(chains)`: first realize the special patterns
detected on the current board (members emptied except the anchor, which
becomes the pattern's power-up), then each linear chain of length ≥ 4 that
shares no cell with a special pattern: its middle cell
(`Math.floor(length / 2)`) becomes a color-bomb (length ≥ 5) or a rocket
oriented like the chain (length 4), every other chain cell is marked
empty.  Chains are passed as the member cells' slots. -/
def createPowerUpsFromChains (b : Board) (chains : List (List (Nat × Nat))) : Board :=
  let specialPatterns := detectSpecialPatterns b
  let b1 := specialPatterns.foldl (fun bAcc pattern =>
    let bAcc := pattern.cells.foldl (fun bb q =>
      if q ≠ pattern.cell then markEmpty bb q else bb) bAcc
    createPowerUp bAcc pattern.cell pattern.ptype) b
  chains.foldl (fun bAcc chain =>
    if specialPatterns.any (fun pattern => pattern.cells.any fun q => chain.contains q) then
      bAcc
    else if 4 ≤ chain.length then
      let isHorizontal := (chain.getD 0 (0, 0)).1 = (chain.getD 1 (0, 0)).1
      let middleIndex := chain.length / 2
      let powerUpCell := chain.getD middleIndex (0, 0)
      let powerUpType : PowerUp :=
        if 5 ≤ chain.length then .colorBomb
        else if isHorizontal then .hRocket
        else .vRocket
      let bAcc := chain.enum.foldl (fun bb iq =>
        if iq.1 ≠ middleIndex then markEmpty bb iq.2 else bb) bAcc
      createPowerUp bAcc powerUpCell powerUpType
    else bAcc) b1

/-! ### Basic pointwise lemmas about board updates -/

theorem setCell_apply (b : Board) (p : Nat × Nat) (cell : Cell) (r c : Nat) :
    setCell b p cell r c = if (r, c) = p then cell else b r c := rfl

theorem markEmpty_apply (b : Board) (p : Nat × Nat) (r c : Nat) :
    markEmpty b p r c = if (r, c) = p then { b p.1 p.2 with empty := true } else b r c := rfl

theorem markEmpty_row (b : Board) (p : Nat × Nat) (r c : Nat) :
    (markEmpty b p r c).row = (b r c).row := by
  rcases p with ⟨pr, pc⟩
  simp only [markEmpty, setCell]
  by_cases h : (r, c) = (pr, pc)
  · rcases Prod.mk.injEq .. ▸ h with ⟨rfl, rfl⟩
    simp
  · simp [h]

theorem markEmpty_column (b : Board) (p : Nat × Nat) (r c : Nat) :
    (markEmpty b p r c).column = (b r c).column := by
  rcases p with ⟨pr, pc⟩
  simp only [markEmpty, setCell]
  by_cases h : (r, c) = (pr, pc)
  · rcases Prod.mk.injEq .. ▸ h with ⟨rfl, rfl⟩
    simp
  · simp [h]

theorem markEmpty_color (b : Board) (p : Nat × Nat) (r c : Nat) :
    (markEmpty b p r c).color = (b r c).color := by
  rcases p with ⟨pr, pc⟩
  simp only [markEmpty, setCell]
  by_cases h : (r, c) = (pr, pc)
  · rcases Prod.mk.injEq .. ▸ h with ⟨rfl, rfl⟩
    simp
  · simp [h]

theorem markEmpty_powerup (b : Board) (p : Nat × Nat) (r c : Nat) :
    (markEmpty b p r c).powerup = (b r c).powerup := by
  rcases p with ⟨pr, pc⟩
  simp only [markEmpty, setCell]
  by_cases h : (r, c) = (pr, pc)
  · rcases Prod.mk.injEq .. ▸ h with ⟨rfl, rfl⟩
    simp
  · simp [h]

theorem markEmpty_empty (b : Board) (p : Nat × Nat) (r c : Nat) :
    (markEmpty b p r c).empty = ((b r c).empty || decide ((r, c) = p)) := by
  rcases p with ⟨pr, pc⟩
  simp only [markEmpty, setCell]
  by_cases h : (r, c) = (pr, pc)
  · rcases Prod.mk.injEq .. ▸ h with ⟨rfl, rfl⟩
    simp
  · simp [h]

/-- A structure update that rewrites both position fields to their current
values is the identity. -/
theorem cell_update_self (cell : Cell) :
    ({ cell with row := cell.row, column := cell.column } : Cell) = cell := rfl

theorem swapCells_apply (b : Board) (p1 p2 : Nat × Nat) (r c : Nat) :
    swapCells b p1 p2 r c =
      if (r, c) = p2 then { b p1.1 p1.2 with row := p2.1, column := p2.2 }
      else if (r, c) = p1 then { b p2.1 p2.2 with row := p1.1, column := p1.2 }
      else b r c := rfl

/-- Swapping preserves well-formedness (the swap rewrites both position
fields, and other slots are untouched). -/
theorem WF_swapCells {b : Board} (hWF : WF b) (p1 p2 : Nat × Nat) :
    WF (swapCells b p1 p2) := by
  intro r hr c hc
  rcases p1 with ⟨r1, c1⟩
  rcases p2 with ⟨r2, c2⟩
  simp only [swapCells]
  by_cases h2 : (r, c) = (r2, c2)
  · rcases Prod.mk.injEq .. ▸ h2 with ⟨rfl, rfl⟩
    simp
  · by_cases h1 : (r, c) = (r1, c1)
    · rcases Prod.mk.injEq .. ▸ h1 with ⟨rfl, rfl⟩
      simp [h2]
    · simp only [h1, h2, if_false]
      exact hWF r hr c hc

/-- Two cells with equal fields are equal. -/
theorem cellEq {x y : Cell} (h1 : x.row = y.row) (h2 : x.column = y.column)
    (h3 : x.color = y.color) (h4 : x.empty = y.empty) (h5 : x.powerup = y.powerup) :
    x = y := by
  cases x
  cases y
  simp_all

/-- A trial swap followed by the reverting swap restores the board,
provided the two swapped cells carried their own coordinates (the `WF`
invariant at the two slots). -/
theorem swapCells_swapCells {b : Board} (p1 p2 : Nat × Nat)
    (h1r : (b p1.1 p1.2).row = p1.1) (h1c : (b p1.1 p1.2).column = p1.2)
    (h2r : (b p2.1 p2.2).row = p2.1) (h2c : (b p2.1 p2.2).column = p2.2) :
    swapCells (swapCells b p1 p2) p1 p2 = b := by
  rcases p1 with ⟨r1, c1⟩
  rcases p2 with ⟨r2, c2⟩
  simp only at h1r h1c h2r h2c
  funext r c
  rw [swapCells_apply]
  by_cases h2 : ((r, c) : Nat × Nat) = (r2, c2)
  · rw [if_pos h2]
    have h2p := h2
    rw [Prod.mk.injEq] at h2p
    obtain ⟨rfl, rfl⟩ := h2p
    rw [swapCells_apply]
    by_cases h12 : ((r1, c1) : Nat × Nat) = (r, c)
    · have h12p := h12
      rw [Prod.mk.injEq] at h12p
      obtain ⟨rfl, rfl⟩ := h12p
      rw [if_pos rfl]
      exact cellEq h2r.symm h2c.symm rfl rfl rfl
    · rw [if_neg h12, if_pos rfl]
      exact cellEq h2r.symm h2c.symm rfl rfl rfl
  · rw [if_neg h2]
    by_cases h1 : ((r, c) : Nat × Nat) = (r1, c1)
    · rw [if_pos h1]
      have h1p := h1
      rw [Prod.mk.injEq] at h1p
      obtain ⟨rfl, rfl⟩ := h1p
      rw [swapCells_apply, if_pos rfl]
      exact cellEq h1r.symm h1c.symm rfl rfl rfl
    · rw [if_neg h1, swapCells_apply, if_neg h2, if_neg h1]

/-! ### The no-moves oracle leaves the board intact, and what it tries -/

/-- What one oracle iteration contributes: the right-swap move when the
right-trial explodes, then the down-swap move when the down-trial
explodes — with both trials taken on the *original* board. -/
def movesOfCell (b : Board) (row column : Nat) : List Move :=
  (if boardShouldExplode (swapCells b (row, column) (row, column + 1)) then
    [((row, column), (row, column + 1))] else []) ++
  (if boardShouldExplode (swapCells b (row, column) (row + 1, column)) then
    [((row, column), (row + 1, column))] else [])

/-- The oracle's output, described without board mutation. -/
def movesSpec (b : Board) : List Move :=
  cellIndices.foldl (fun acc rc => acc ++ movesOfCell b rc.1 rc.2) []

theorem getWinningMovesStep_eq {b : Board} (hWF : WF b) {row column : Nat}
    (hr : row + 1 < size) (hc : column + 1 < size) (acc : List Move) :
    getWinningMovesStep (b, acc) (row, column) = (b, acc ++ movesOfCell b row column) := by
  have h1 := hWF row (by omega) column (by omega)
  have h2 := hWF row (by omega) (column + 1) hc
  have h3 := hWF (row + 1) hr column (by omega)
  have hrev1 : swapCells (swapCells b (row, column) (row, column + 1))
      (row, column) (row, column + 1) = b :=
    swapCells_swapCells _ _ h1.1 h1.2 h2.1 h2.2
  have hrev2 : swapCells (swapCells b (row, column) (row + 1, column))
      (row, column) (row + 1, column) = b :=
    swapCells_swapCells _ _ h1.1 h1.2 h3.1 h3.2
  simp only [getWinningMovesStep, movesOfCell, hrev1, hrev2]
  cases boardShouldExplode (swapCells b (row, column) (row, column + 1)) <;>
    cases boardShouldExplode (swapCells b (row, column) (row + 1, column)) <;>
      simp

theorem foldl_getWinningMovesStep {b : Board} (hWF : WF b) :
    ∀ (l : List (Nat × Nat)), (∀ rc ∈ l, rc.1 + 1 < size ∧ rc.2 + 1 < size) → ∀ acc,
      l.foldl getWinningMovesStep (b, acc) =
        (b, l.foldl (fun a rc => a ++ movesOfCell b rc.1 rc.2) acc)
  | [], _, acc => rfl
  | rc :: l, h, acc => by
    obtain ⟨hr, hc⟩ := h rc (List.mem_cons_self ..)
    rcases rc with ⟨row, column⟩
    rw [List.foldl_cons, List.foldl_cons, getWinningMovesStep_eq hWF hr hc]
    exact foldl_getWinningMovesStep hWF l (fun x hx => h x (List.mem_cons_of_mem _ hx)) _

theorem mem_cellIndices {rc : Nat × Nat} :
    rc ∈ cellIndices ↔ rc.1 < size - 1 ∧ rc.2 < size - 1 := by
  rcases rc with ⟨row, column⟩
  simp only [cellIndices, List.mem_flatten, List.mem_map]
  constructor
  · rintro ⟨l, ⟨r, hr, rfl⟩, hin⟩
    simp only [List.mem_map] at hin
    obtain ⟨c, hc, heq⟩ := hin
    obtain ⟨rfl, rfl⟩ := Prod.mk.injEq .. ▸ heq
    exact ⟨List.mem_range.mp hr, List.mem_range.mp hc⟩
  · rintro ⟨hr, hc⟩
    exact ⟨(List.range (size - 1)).map fun c => (row, c),
      ⟨row, List.mem_range.mpr hr, rfl⟩,
      List.mem_map.mpr ⟨column, List.mem_range.mpr hc, rfl⟩⟩

theorem getWinningMovesS_eq {b : Board} (hWF : WF b) :
    getWinningMovesS b = (b, movesSpec b) :=
  foldl_getWinningMovesStep hWF cellIndices
    (fun rc h => by
      obtain ⟨h1, h2⟩ := mem_cellIndices.mp h
      constructor <;> simp [size] at h1 h2 ⊢ <;> omega) []

theorem getWinningMoves_eq_movesSpec {b : Board} (hWF : WF b) :
    getWinningMoves b = movesSpec b := by
  unfold getWinningMoves
  rw [getWinningMovesS_eq hWF]

/-- Generic accumulator form of an append-fold. -/
theorem foldl_append_eq_flatten {α β : Type} (f : α → List β) :
    ∀ (l : List α) (acc : List β),
      l.foldl (fun a x => a ++ f x) acc = acc ++ (l.map f).flatten
  | [], acc => by simp
  | x :: l, acc => by
    rw [List.foldl_cons, foldl_append_eq_flatten f l]
    simp

theorem movesSpec_eq_nil_iff (b : Board) :
    movesSpec b = [] ↔ ∀ rc ∈ cellIndices, movesOfCell b rc.1 rc.2 = [] := by
  unfold movesSpec
  rw [foldl_append_eq_flatten (fun rc => movesOfCell b rc.1 rc.2) cellIndices []]
  rw [List.nil_append, List.flatten_eq_nil_iff]
  constructor
  · intro h rc hrc
    exact h _ (List.mem_map.mpr ⟨rc, hrc, rfl⟩)
  · rintro h l hl
    obtain ⟨rc, hrc, rfl⟩ := List.mem_map.mp hl
    exact h rc hrc

/-- A board exhibiting the gap in the no-moves oracle: every cell holds a
tnt power-up except three blue gems in the last row at columns 1, 2 and 4.
Power-up cells never match and never form special patterns, so no trial
swap the oracle performs creates an explosion — but swapping the last-row
neighbours (7,3) and (7,4) lines up three blue gems, a swap the oracle's
loops (`row < size - 1`, `column < size - 1`) never try. -/
def oracleGapBoard : Board := fun r c =>
  if r = 7 ∧ (c = 1 ∨ c = 2 ∨ c = 4) then
    { row := r, column := c, color := some (.gem .blue), empty := false, powerup := none }
  else
    { row := r, column := c, color := some (.pu .tnt), empty := false, powerup := some .tnt }

theorem oracleGapBoard_WF : WF oracleGapBoard := by decide

set_option maxRecDepth 1000000 in
set_option maxHeartbeats 40000000 in
theorem oracleGapBoard_movesSpec : movesSpec oracleGapBoard = [] := by decide

theorem oracleGapBoard_winningMoves : getWinningMoves oracleGapBoard = [] :=
  (getWinningMoves_eq_movesSpec oracleGapBoard_WF).trans oracleGapBoard_movesSpec

/-- C8: `getWinningMoves` reverts every trial swap, so the board it leaves
behind is the board it started from — every slot (hence every cell's row,
column, color, empty flag and power-up field) is unchanged. -/
theorem c8_winning_moves_preserves_board {b : Board} (hWF : WF b) :
    (getWinningMovesS b).1 = b := by
  rw [getWinningMovesS_eq hWF]

/-- C8 witness: the frame property instantiated on a concrete board. -/
theorem c8_winning_moves_preserves_board_witness :
    WF oracleGapBoard ∧ (getWinningMovesS oracleGapBoard).1 = oracleGapBoard :=
  ⟨oracleGapBoard_WF, c8_winning_moves_preserves_board oracleGapBoard_WF⟩

/-- C5 counterexample: the no-moves oracle is *not* exhaustive.  On
`oracleGapBoard` it returns no winning moves, yet swapping the adjacent
cells (7,3) and (7,4) — a horizontal pair inside the last row, which the
oracle's `row < size - 1` loop never tries — makes `boardShouldExplode()`
true. -/
theorem c5_counterexample :
    getWinningMoves oracleGapBoard = [] ∧
      cellsAreNeighbours (oracleGapBoard 7 3) (oracleGapBoard 7 4) = true ∧
      boardShouldExplode (swapCells oracleGapBoard (7, 3) (7, 4)) = true :=
  ⟨oracleGapBoard_winningMoves, by decide, by decide⟩

/-- C5 amended: if `getWinningMoves()` returns an empty list, then no swap
the oracle *tries* — a right-swap or down-swap at `(row, column)` with
`row < size - 1` and `column < size - 1` — makes `boardShouldExplode()`
true.  Horizontal swaps inside the last row and vertical swaps inside the
last column are not covered by the oracle. -/
theorem c5_empty_oracle_no_tried_swap_explodes {b : Board} (hWF : WF b)
    (hnil : getWinningMoves b = []) {row column : Nat}
    (hr : row < size - 1) (hc : column < size - 1) :
    boardShouldExplode (swapCells b (row, column) (row, column + 1)) = false ∧
      boardShouldExplode (swapCells b (row, column) (row + 1, column)) = false := by
  have hspec : movesSpec b = [] := ((getWinningMoves_eq_movesSpec hWF).symm).trans hnil
  have h := (movesSpec_eq_nil_iff b).mp hspec (row, column) (mem_cellIndices.mpr ⟨hr, hc⟩)
  unfold movesOfCell at h
  rw [List.append_eq_nil] at h
  constructor
  · cases hx : boardShouldExplode (swapCells b (row, column) (row, column + 1))
    · rfl
    · rw [hx, if_pos rfl] at h
      exact absurd h.1 (by intro hfalse; cases hfalse)
  · cases hx : boardShouldExplode (swapCells b (row, column) (row + 1, column))
    · rfl
    · rw [hx, if_pos rfl] at h
      exact absurd h.2 (by intro hfalse; cases hfalse)

/-- C5 amended witness: on `oracleGapBoard` the oracle is empty, and the
tried swap at (0,0) indeed does not explode. -/
theorem c5_empty_oracle_witness :
    WF oracleGapBoard ∧ getWinningMoves oracleGapBoard = [] ∧
      (0 : Nat) < size - 1 ∧
      boardShouldExplode (swapCells oracleGapBoard (0, 0) (0, 1)) = false :=
  ⟨oracleGapBoard_WF, oracleGapBoard_winningMoves, by decide,
    (c5_empty_oracle_no_tried_swap_explodes oracleGapBoard_WF
      oracleGapBoard_winningMoves (by decide) (by decide)).1⟩

end GemMatch

namespace GemMatchClassic

/-!
The older scene variant (the `GameScene` in `src/unnamed/part_000`, the
claims' cited lines for the move counter): `decrementMoves` itself checks
for game over immediately after decrementing.  Only the score/move/game
over registers are modelled; board (re)initialization is random and
presentation-bound.
-/

/-- The scene's counters: `score`, `moves`, `isGameOver`. -/
structure GameState where
  score : Int
  moves : Int
  isGameOver : Bool
  deriving DecidableEq, Repr

/-- `setMoves(moves)` (registry mirroring omitted). -/
def setMoves (s : GameState) (moves : Int) : GameState :=
  { s with moves := moves }

/-- `setScore(score)`. -/
def setScore (s : GameState) (score : Int) : GameState :=
  { s with score := score }

/-- `gameOver(message)`: sets the game-over flag (UI omitted). -/
def gameOver (s : GameState) : GameState :=
  { s with isGameOver := true }

/-- `decrementMoves()`: one fewer move; as soon as the new value is ≤ 0,
game over. -/
def decrementMoves (s : GameState) : GameState :=
  let s1 := setMoves s (s.moves - 1)
  if s1.moves ≤ 0 then gameOver s1 else s1

/-- `startNewGame()` restricted to the counters: clear the game-over flag,
reset the score and set the move counter to 30 (board rebuild omitted). -/
def startNewGame (s : GameState) : GameState :=
  setMoves (setScore { s with isGameOver := false } 0) 30

lemma decrementMoves_moves (s : GameState) :
    (decrementMoves s).moves = s.moves - 1 := by
  simp only [decrementMoves, setMoves, gameOver]
  by_cases h : s.moves - 1 ≤ 0
  · rw [if_pos h]
  · rw [if_neg h]

lemma decrementMoves_isGameOver (s : GameState) :
    (decrementMoves s).isGameOver = (decide (s.moves - 1 ≤ 0) || s.isGameOver) := by
  simp only [decrementMoves, setMoves, gameOver]
  by_cases h : s.moves - 1 ≤ 0
  · rw [if_pos h]
    simp [h]
  · rw [if_neg h]
    simp [h]

/-- Closed form of `n` successive `decrementMoves` calls after `startNewGame`. -/
lemma iterate_decrementMoves_newGame (s : GameState) (n : Nat) :
    decrementMoves^[n] (startNewGame s) =
      { score := 0, moves := 30 - (n : Int), isGameOver := decide (30 ≤ n) } := by
  induction n with
  | zero => simp [startNewGame, setMoves, setScore]
  | succ n ih =>
      rw [Function.iterate_succ_apply', ih]
      simp only [decrementMoves, setMoves, gameOver]
      by_cases h : (30 : Int) - (n : Int) - 1 ≤ 0
      · rw [if_pos h]
        simp only [GameState.mk.injEq]
        refine ⟨trivial, by push_cast; ring, ?_⟩
        exact (decide_eq_true (by omega : (30 : Nat) ≤ n + 1)).symm
      · rw [if_neg h]
        simp only [GameState.mk.injEq]
        refine ⟨trivial, by push_cast; ring, ?_⟩
        have h1 : ¬ (30 : Nat) ≤ n := by omega
        have h2 : ¬ (30 : Nat) ≤ n + 1 := by omega
        simp [h1, h2]

/-- C9: `startNewGame` sets the move counter to 30; `decrementMoves` lowers
the counter by exactly one and raises the game-over flag exactly when the
decremented value is ≤ 0; consequently, after `n` accepted moves the counter
reads `30 - n` and the game is over if and only if `n ≥ 30` — a game ends
after at most 30 accepted moves. -/
theorem c9_move_counter_thirty (s t : GameState) (n : Nat) :
    (startNewGame s).moves = 30 ∧
    (decrementMoves t).moves = t.moves - 1 ∧
    (decrementMoves t).isGameOver = (decide (t.moves - 1 ≤ 0) || t.isGameOver) ∧
    (decrementMoves^[n] (startNewGame s)).moves = 30 - (n : Int) ∧
    ((decrementMoves^[n] (startNewGame s)).isGameOver ↔ 30 ≤ n) := by
  refine ⟨rfl, decrementMoves_moves t, decrementMoves_isGameOver t, ?_, ?_⟩ <;>
    rw [iterate_decrementMoves_newGame] <;> simp

end GemMatchClassic

